import Mathlib

/-!
Verification of the `pip-check` reconciliation core
(`piptools/scripts/check.py`): a shallow embedding of the target-pass
(pin building), the source-pass (reconciliation) and the exit logic,
together with theorems settling the behavioural claims about them.

The embedding mirrors the source loop structure of `cli` in
`piptools/scripts/check.py` lines 174-247.  Collaborators that live
outside the provided sources (the identity normaliser `key_from_ireq`,
the classifiers `is_pinned_requirement` / `is_url_requirement`, the
renderer `format_requirement`, and version-specifier satisfaction from
the external packaging library) are modelled from the specification, as
marked on each definition.
-/

namespace PipCheck

/-- A parsed requirement record (`InstallRequirement` as consumed by the
checker).  `name` is `none` when the record carries no parsed package
identity (in the source, `ireq.req is None`, which coincides with the
name being absent); `markers` holds the evaluation of the record's
environment marker (`none` = no marker present); `is_url_based` is the
record-level attribute behind `is_url_requirement`; `comes_from` is the
provenance string; `link` is the artifact location used to render
editable / nameless records. -/
structure Ireq where
  name : Option String
  editable : Bool
  is_url_based : Bool
  specifier : List (String × String)
  constraint : Bool
  markers : Option Bool
  comes_from : String
  link : String
deriving Repr, DecidableEq

/-- Modelled from the spec: the Identity Normalizer (`key_from_ireq` /
`key_from_req` live outside the provided sources).  Per spec section 4.1 it is
case-insensitive and treats `-`, `_` and `.` as equivalent separators. -/
def normalize (s : String) : String :=
  ⟨s.data.map (fun c => Char.toLower (if c == '_' || c == '.' then '-' else c))⟩

/-- Modelled from the spec: the identity key of a record is the canonical
form of its name, and is empty exactly when the name is absent
(spec section 3 invariant). -/
def key_from_ireq (r : Ireq) : String :=
  match r.name with
  | some n => normalize n
  | none => ""

/-- Modelled from the spec: the Requirement Classifier's pinned-exact test
(`is_pinned_requirement` lives outside the provided sources); per spec
section 4.2 a record is pinned when its specifier carries an exact-equality
clause. -/
def is_pinned_requirement (r : Ireq) : Bool :=
  r.specifier.any (fun c => c.1 == "==")

/-- Modelled from the spec: the URL-based classifier
(`is_url_requirement` lives outside the provided sources); per spec
section 3 this is a record attribute. -/
def is_url_requirement (r : Ireq) : Bool :=
  r.is_url_based

/-- Render the clauses of a specifier, comma separated (the clause list of
`str(req)`). -/
def formatSpecs : List (String × String) → String
  | [] => ""
  | [c] => c.1 ++ c.2
  | c :: c2 :: rest => c.1 ++ c.2 ++ "," ++ formatSpecs (c2 :: rest)

/-- Modelled from the spec: the requirement renderer (`format_requirement`
lives outside the provided sources); renders e.g. `six==1.9.0`. -/
def format_requirement (r : Ireq) : String :=
  if r.editable then "-e " ++ r.link
  else
    match r.name with
    | some n => n ++ formatSpecs r.specifier
    | none => r.link

/-- String prefix test over the character list (`str.startswith`). -/
def strStartsWith (s pre : String) : Bool :=
  pre.data.isPrefixOf s.data

/-- Drop the first `n` characters of a string (`str[n:]`). -/
def strDrop (s : String) (n : Nat) : String :=
  ⟨s.data.drop n⟩

/-- `format_constraint` from `check.py` lines 35-45: the requirement
rendering followed by its provenance, with a leading `-r ` / `-c ` pip
flag stripped from the provenance. -/
def format_constraint (r : Ireq) : String :=
  format_requirement r ++ " from " ++
    (if strStartsWith r.comes_from "-r " || strStartsWith r.comes_from "-c "
      then strDrop r.comes_from 3 else r.comes_from)

/-- Dotted-version comparison with implicit zero padding. -/
def cmpVer : List Nat → List Nat → Ordering
  | [], ys => if ys.all (fun y => y == 0) then Ordering.eq else Ordering.lt
  | x :: xs, [] =>
    if x == 0 && xs.all (fun y => y == 0) then Ordering.eq else Ordering.gt
  | x :: xs, y :: ys =>
    if x < y then Ordering.lt else if y < x then Ordering.gt else cmpVer xs ys

/-- Split a character list at the dots. -/
def splitDots : List Char → List Char → List (List Char)
  | [], acc => [acc.reverse]
  | c :: cs, acc =>
    if c == '.' then acc.reverse :: splitDots cs [] else splitDots cs (c :: acc)

/-- Read a digit chunk as a number. -/
def chunkToNat (cs : List Char) : Nat :=
  cs.foldl (fun n c => n * 10 + (c.toNat - 48)) 0

/-- Parse a dotted version string into its numeric components. -/
def parseVersion (s : String) : List Nat :=
  (splitDots s.data []).map chunkToNat

/-- Modelled from the spec: satisfaction of a single version clause.
Version-specifier semantics are owned by the external requirements-parsing
library (out of scope per spec section 1); modelled here as numeric
dotted-version comparison, sufficient for the operators the spec uses. -/
def clauseContains (op ver v : String) : Bool :=
  let c := cmpVer (parseVersion v) (parseVersion ver)
  match op with
  | "==" => c == Ordering.eq
  | "!=" => !(c == Ordering.eq)
  | "<=" => !(c == Ordering.gt)
  | ">=" => !(c == Ordering.lt)
  | "<" => c == Ordering.lt
  | ">" => c == Ordering.gt
  | _ => false

/-- Modelled from the spec: `SpecifierSet.contains` of the external
packaging library — a version satisfies a specifier set when it satisfies
every clause. -/
def specContains (specs : List (String × String)) (v : String) : Bool :=
  specs.all (fun c => clauseContains c.1 c.2 v)

/-- The Finding Sink (`ErrorCounter` in `check.py` lines 48-67): the two
counters plus the findings recorded through each channel, in order. -/
structure CheckState where
  errors : Nat
  warnings : Nat
  errorMsgs : List String
  warningMsgs : List String
deriving Repr, DecidableEq

/-- The sink at the start of a run: both counters zero, nothing recorded. -/
def CheckState.init : CheckState :=
  { errors := 0, warnings := 0, errorMsgs := [], warningMsgs := [] }

/-- `ErrorCounter.error`: record an error finding and bump the error
counter (`check.py` lines 59-62). -/
def CheckState.error (st : CheckState) (msg : String) : CheckState :=
  { st with errors := st.errors + 1, errorMsgs := st.errorMsgs ++ [msg] }

/-- `ErrorCounter.warning`: record a warning finding and bump the warning
counter (`check.py` lines 64-67). -/
def CheckState.warning (st : CheckState) (msg : String) : CheckState :=
  { st with warnings := st.warnings + 1, warningMsgs := st.warningMsgs ++ [msg] }

/-- The `existing_pins` mapping: an insertion-ordered association list,
mirroring a Python `dict` over identity keys. -/
abbrev Pins := List (String × Ireq)

/-- `key in existing_pins` / `existing_pins[key]` read access: the value
stored at `k`, if any. -/
def lookupPin (pins : Pins) (k : String) : Option Ireq :=
  (pins.find? (fun p => p.1 == k)).map Prod.snd

/-- `key in existing_pins` membership test. -/
def containsPin (pins : Pins) (k : String) : Bool :=
  (lookupPin pins k).isSome

/-- `existing_pins[key] = ireq` write access: replace the entry in place
when the key is present (a Python dict keeps the original position),
append otherwise. -/
def insertPin (pins : Pins) (k : String) (r : Ireq) : Pins :=
  if pins.any (fun p => p.1 == k) then
    pins.map (fun p => if p.1 == k then (k, r) else p)
  else pins ++ [(k, r)]

/-- The unpinned check of a target-pass iteration (`check.py` lines
182-183): warn when the record is neither pinned-exact nor URL-based. -/
def warnUnpinned (st : CheckState) (r : Ireq) : CheckState :=
  if !is_pinned_requirement r && !is_url_requirement r
  then st.warning (format_requirement r ++ " is unpinned") else st

/-- The duplicate check of a target-pass iteration (`check.py` lines
184-185): when the record's key is already stored, emit the duplicate
error referencing the previously stored pin. -/
def errorDuplicate (st : CheckState) (pins : Pins) (r : Ireq) : CheckState :=
  match lookupPin pins (key_from_ireq r) with
  | some prev =>
    st.error (format_requirement r ++ " is a duplicate of " ++ format_requirement prev)
  | none => st

/-- The shared tail of a target-pass iteration (`check.py` lines 181-186):
warn when neither pinned nor URL-based, emit the duplicate error when the
key is already pinned, then store the record under its key. -/
def targetStep (st : CheckState) (pins : Pins) (r : Ireq) : CheckState × Pins :=
  (errorDuplicate (warnUnpinned st r) pins r, insertPin pins (key_from_ireq r) r)

/-- One iteration of the target pass (`check.py` lines 175-186): editable
records with a name get an editable warning and fall through; non-editable
records without a parsed requirement are skipped; everything else runs
`targetStep`. -/
def processTarget (acc : CheckState × Pins) (r : Ireq) : CheckState × Pins :=
  if r.editable then
    targetStep
      (if r.name.isSome
        then acc.1.warning (format_requirement r ++ " is editable") else acc.1)
      acc.2 r
  else if r.name.isNone then acc
  else targetStep acc.1 acc.2 r

/-- The whole target pass (`check.py` lines 174-186): fold the target
records into the sink and the `existing_pins` mapping. -/
def builtPins (targets : List Ireq) : CheckState × Pins :=
  targets.foldl processTarget (CheckState.init, [])

/-- The ways the reconcile loop can abort with an uncaught Python
exception: `existing_pins[key]` on an absent key (`KeyError`), and
`next(iter(...))` on an empty specifier (`StopIteration`). -/
inductive RunErr where
  | keyError : String → RunErr
  | stopIteration : RunErr
deriving Repr, DecidableEq

/-- One iteration of the reconcile loop (`check.py` lines 228-237):
non-constraint records whose key is not pinned yield the missing-requirement
error and stop there; otherwise the pin is looked up (an absent key aborts
with `KeyError`), and when the source record carries a requirement with a
non-empty specifier, the version of the pin's first specifier clause is
extracted (an empty pin specifier aborts with `StopIteration`) and checked
against the source specifier. -/
def processSource (pins : Pins) (st : CheckState) (r : Ireq) : Except RunErr CheckState :=
  if !r.constraint && !containsPin pins (key_from_ireq r) then
    Except.ok (st.error ("missing requirement " ++ format_constraint r))
  else
    match lookupPin pins (key_from_ireq r) with
    | none => Except.error (RunErr.keyError (key_from_ireq r))
    | some pin =>
      if r.name.isSome && !r.specifier.isEmpty then
        match pin.specifier with
        | [] => Except.error RunErr.stopIteration
        | c :: _ =>
          if !specContains r.specifier c.2 then
            Except.ok (st.error ("incompatible requirements found, " ++
              format_requirement pin ++ " violates constraint " ++ format_constraint r))
          else Except.ok st
      else Except.ok st

instance {ε α : Type} [DecidableEq ε] [DecidableEq α] : DecidableEq (Except ε α) :=
  fun a b =>
  match a, b with
  | Except.error e, Except.error f =>
    if h : e = f then isTrue (by rw [h]) else isFalse (by intro hc; cases hc; exact h rfl)
  | Except.ok x, Except.ok y =>
    if h : x = y then isTrue (by rw [h]) else isFalse (by intro hc; cases hc; exact h rfl)
  | Except.error _, Except.ok _ => isFalse (by intro hc; cases hc)
  | Except.ok _, Except.error _ => isFalse (by intro hc; cases hc)

/-- The observable outcome of a completed run: the final counters and
findings, the exit status, the `primary_packages` keys and the keys of
`existing_pins`, in order. -/
structure RunResult where
  errors : Nat
  warnings : Nat
  errorMsgs : List String
  warningMsgs : List String
  exitStatus : Nat
  primaryPackages : List String
  pinKeys : List String
deriving Repr, DecidableEq

/-- Assemble the run outcome from the final sink state (`check.py`
lines 239-247: `sys.exit(1)` exactly when the error counter is positive,
implicit status 0 otherwise). -/
def mkResult (primary pinKeys : List String) (st : CheckState) : RunResult :=
  { errors := st.errors, warnings := st.warnings,
    errorMsgs := st.errorMsgs, warningMsgs := st.warningMsgs,
    exitStatus := if st.errors > 0 then 1 else 0,
    primaryPackages := primary, pinKeys := pinKeys }

/-- The checking phase of `cli` (`check.py` lines 174-247): build the pins
from the target records, compute `primary_packages` from the unfiltered
source records (line 219-221), drop source records whose environment
marker evaluates false (lines 224-226), run the reconcile loop, and
compute the exit status. -/
def runCheck (targets sources : List Ireq) : Except RunErr RunResult :=
  let stPins := builtPins targets
  let primary := (sources.filter (fun r => !r.constraint)).map key_from_ireq
  let filtered := sources.filter (fun r => r.markers.getD true)
  (filtered.foldlM (processSource stPins.2) stPins.1).map
    (mkResult primary (stPins.2.map Prod.fst))

/-- The identity keys of the target records the pass actually stores
(editable records, and non-editable records with a parsed identity). -/
def processedKeys (targets : List Ireq) : List String :=
  (targets.filter (fun r => r.editable || r.name.isSome)).map key_from_ireq

/-! Sample records used by the concrete evaluations below. -/

/-- A pinned target record `six==1.9.0`. -/
def six190 : Ireq :=
  { name := some "six", editable := false, is_url_based := false,
    specifier := [("==", "1.9.0")], constraint := false, markers := none,
    comes_from := "-r requirements.txt", link := "" }

/-- A pinned target record `six==1.10.0`. -/
def six1100 : Ireq :=
  { six190 with specifier := [("==", "1.10.0")] }

/-- A pinned target record `gnureadline==6.6.3`. -/
def gnureadline663 : Ireq :=
  { six190 with name := some "gnureadline", specifier := [("==", "6.6.3")] }

/-- A bare (unpinned) record `six` with an empty specifier. -/
def sixBare : Ireq :=
  { six190 with specifier := [] }

/-- A source record `six==1.10.0` coming from `requirements.in`. -/
def six1100src : Ireq :=
  { six190 with specifier := [("==", "1.10.0")], comes_from := "-r requirements.in" }

/-- A bare primary source record `six` from `requirements.in`. -/
def sixBareSrc : Ireq :=
  { sixBare with comes_from := "-r requirements.in" }

/-- A constraint-only source record `six>=1.10.0` from `constraints.txt`. -/
def sixGe1100c : Ireq :=
  { six190 with
    specifier := [(">=", "1.10.0")]
    constraint := true
    comes_from := "-c constraints.txt" }

/-- A bare primary source record `django` from `requirements.in`. -/
def djangoBareSrc : Ireq :=
  { sixBareSrc with name := some "django" }

/-- A primary source record `django` whose environment marker evaluates
false in the current environment. -/
def djangoMarkerFalse : Ireq :=
  { djangoBareSrc with markers := some false }

/-- An editable target record with no resolvable name (e.g. `-e ./local`). -/
def editableNoName : Ireq :=
  { name := none, editable := true, is_url_based := true, specifier := []
    constraint := false, markers := none, comes_from := "-r requirements.txt"
    link := "file:///local" }

/-- The outcome of the run used to witness the exit-status property: one
unpinned warning, no errors, status 0. -/
def unpinnedRunResult : RunResult :=
  { errors := 0, warnings := 1, errorMsgs := [], warningMsgs := ["six is unpinned"]
    exitStatus := 0, primaryPackages := [], pinKeys := ["six"] }

/-- Abstraction of how `existing_pins.keys()` evolves under one store:
a fresh key is appended, an existing key leaves the key list unchanged. -/
def insertKey (ks : List String) (k : String) : List String :=
  if ks.any (fun x => x == k) then ks else ks ++ [k]

/-! ### Helper lemmas about the pins mapping -/

theorem find?_replace_of_any (pins : Pins) (k : String) (r : Ireq)
    (h : pins.any (fun p => p.1 == k) = true) :
    (pins.map (fun p => if p.1 == k then (k, r) else p)).find? (fun p => p.1 == k)
      = some (k, r) := by
  induction pins with
  | nil => simp at h
  | cons q qs ih =>
    rw [List.map_cons]
    by_cases hq : (q.1 == k) = true
    · rw [if_pos hq]
      simp only [List.find?_cons, beq_self_eq_true]
    · have hq' : (q.1 == k) = false := Bool.eq_false_iff.mpr hq
      rw [List.any_cons, hq', Bool.false_or] at h
      rw [if_neg hq]
      simp only [List.find?_cons, hq']
      exact ih h

theorem find?_append_of_not_any (pins : Pins) (k : String) (r : Ireq)
    (h : pins.any (fun p => p.1 == k) = false) :
    (pins ++ [(k, r)]).find? (fun p => p.1 == k) = some (k, r) := by
  induction pins with
  | nil =>
    rw [List.nil_append]
    simp only [List.find?_cons, beq_self_eq_true]
  | cons q qs ih =>
    rw [List.any_cons, Bool.or_eq_false_iff] at h
    rw [List.cons_append]
    simp only [List.find?_cons, h.1]
    exact ih h.2

theorem lookupPin_insertPin (pins : Pins) (k : String) (r : Ireq) :
    lookupPin (insertPin pins k r) k = some r := by
  unfold insertPin lookupPin
  by_cases h : pins.any (fun p => p.1 == k) = true
  · rw [if_pos h, find?_replace_of_any pins k r h]
    rfl
  · have h' : pins.any (fun p => p.1 == k) = false := Bool.eq_false_iff.mpr h
    rw [if_neg h, find?_append_of_not_any pins k r h']
    rfl

theorem any_eq_false_of_lookupPin_none (pins : Pins) (k : String)
    (h : lookupPin pins k = none) : pins.any (fun p => p.1 == k) = false := by
  unfold lookupPin at h
  cases hf : pins.find? (fun p => p.1 == k) with
  | none =>
    rw [List.find?_eq_none] at hf
    rw [List.any_eq_false]
    intro p hp
    exact hf p hp
  | some p => rw [hf] at h; simp at h

theorem map_fst_insertPin (pins : Pins) (k : String) (r : Ireq) :
    (insertPin pins k r).map Prod.fst = insertKey (pins.map Prod.fst) k := by
  unfold insertPin insertKey
  have hany : (pins.map Prod.fst).any (fun x => x == k)
      = pins.any (fun p => p.1 == k) := by
    induction pins with
    | nil => rfl
    | cons q qs ih => rw [List.map_cons, List.any_cons, List.any_cons, ih]
  rw [hany]
  by_cases h : pins.any (fun p => p.1 == k) = true
  · rw [if_pos h, if_pos h, List.map_map]
    apply List.map_congr_left
    intro p _
    by_cases hp : (p.1 == k) = true
    · simp only [Function.comp_apply, if_pos hp]
      exact (eq_of_beq hp).symm
    · simp only [Function.comp_apply, if_neg hp]
  · rw [if_neg h, if_neg h, List.map_append]
    rfl

theorem map_fst_processTarget (st : CheckState) (pins : Pins) (r : Ireq) :
    ((processTarget (st, pins) r).2).map Prod.fst =
      if r.editable || r.name.isSome then insertKey (pins.map Prod.fst) (key_from_ireq r)
      else pins.map Prod.fst := by
  unfold processTarget targetStep
  cases he : r.editable with
  | true => simp [map_fst_insertPin]
  | false =>
    cases hn : r.name with
    | none => simp [hn]
    | some n => simp [hn, map_fst_insertPin]

theorem map_fst_foldl_processTarget (ts : List Ireq) :
    ∀ (st : CheckState) (pins : Pins),
      ((ts.foldl processTarget (st, pins)).2).map Prod.fst =
        (processedKeys ts).foldl insertKey (pins.map Prod.fst) := by
  induction ts with
  | nil => intro st pins; simp [processedKeys]
  | cons r ts ih =>
    intro st pins
    rw [List.foldl_cons]
    have heta : processTarget (st, pins) r =
        ((processTarget (st, pins) r).1, (processTarget (st, pins) r).2) := rfl
    rw [heta, ih, map_fst_processTarget]
    unfold processedKeys
    rw [List.filter_cons]
    by_cases h : (r.editable || r.name.isSome) = true
    · simp [h]
    · have h' : (r.editable || r.name.isSome) = false := Bool.eq_false_iff.mpr h
      simp [h']

theorem toFinset_insertKey (ks : List String) (k : String) :
    (insertKey ks k).toFinset = insert k ks.toFinset := by
  unfold insertKey
  by_cases h : ks.any (fun x => x == k) = true
  · have hk : k ∈ ks := by
      rw [List.any_eq_true] at h
      obtain ⟨x, hx, hbeq⟩ := h
      exact (eq_of_beq hbeq) ▸ hx
    rw [if_pos h]
    exact ((Finset.insert_eq_self).mpr (List.mem_toFinset.mpr hk)).symm
  · rw [if_neg h, List.toFinset_append]
    simp [Finset.union_comm, Finset.insert_eq]

theorem nodup_insertKey (ks : List String) (k : String) (h : ks.Nodup) :
    (insertKey ks k).Nodup := by
  unfold insertKey
  by_cases ha : ks.any (fun x => x == k) = true
  · rwa [if_pos ha]
  · have hk : k ∉ ks := by
      intro hmem
      exact ha (List.any_eq_true.mpr ⟨k, hmem, beq_self_eq_true k⟩)
    rw [if_neg ha]
    simp [List.nodup_append, h, hk]

theorem toFinset_foldl_insertKey (l : List String) :
    ∀ (ks : List String), (l.foldl insertKey ks).toFinset = ks.toFinset ∪ l.toFinset := by
  induction l with
  | nil => intro ks; simp
  | cons a l ih =>
    intro ks
    rw [List.foldl_cons, ih, toFinset_insertKey]
    simp [Finset.insert_union, Finset.union_insert]

theorem nodup_foldl_insertKey (l : List String) :
    ∀ (ks : List String), ks.Nodup → (l.foldl insertKey ks).Nodup := by
  induction l with
  | nil => intro ks h; simpa using h
  | cons a l ih =>
    intro ks h
    rw [List.foldl_cons]
    exact ih _ (nodup_insertKey ks a h)

theorem length_builtPins (ts : List Ireq) :
    (builtPins ts).2.length = (processedKeys ts).toFinset.card := by
  have h1 : (builtPins ts).2.length = ((builtPins ts).2.map Prod.fst).length := by
    rw [List.length_map]
  have h2 : ((builtPins ts).2.map Prod.fst) =
      (processedKeys ts).foldl insertKey [] := by
    have := map_fst_foldl_processTarget ts CheckState.init []
    simpa [builtPins] using this
  have h3 : ((processedKeys ts).foldl insertKey []).Nodup :=
    nodup_foldl_insertKey _ [] List.nodup_nil
  have h4 : ((processedKeys ts).foldl insertKey []).toFinset =
      (processedKeys ts).toFinset := by
    rw [toFinset_foldl_insertKey]
    simp
  rw [h1, h2, ← List.toFinset_card_of_nodup h3, h4]

/-- The dup-step core of the target pass: when the record's key is already
pinned, exactly one error (the duplicate message referencing the stored
pin) is recorded and the mapping entry is overwritten with the record. -/
theorem warnUnpinned_errors (st : CheckState) (r : Ireq) :
    (warnUnpinned st r).errors = st.errors := by
  unfold warnUnpinned
  by_cases h : (!is_pinned_requirement r && !is_url_requirement r) = true
  · rw [if_pos h]; rfl
  · rw [if_neg h]

theorem warnUnpinned_errorMsgs (st : CheckState) (r : Ireq) :
    (warnUnpinned st r).errorMsgs = st.errorMsgs := by
  unfold warnUnpinned
  by_cases h : (!is_pinned_requirement r && !is_url_requirement r) = true
  · rw [if_pos h]; rfl
  · rw [if_neg h]

theorem targetStep_duplicate (st : CheckState) (pins : Pins) (r prev : Ireq)
    (hdup : lookupPin pins (key_from_ireq r) = some prev) :
    (targetStep st pins r).1.errors = st.errors + 1 ∧
    (targetStep st pins r).1.errorMsgs = st.errorMsgs ++
      [format_requirement r ++ " is a duplicate of " ++ format_requirement prev] ∧
    (targetStep st pins r).2 = insertPin pins (key_from_ireq r) r := by
  unfold targetStep errorDuplicate
  rw [hdup]
  refine ⟨?_, ?_, rfl⟩
  · show (warnUnpinned st r).errors + 1 = st.errors + 1
    rw [warnUnpinned_errors]
  · show (warnUnpinned st r).errorMsgs ++ _ = _
    rw [warnUnpinned_errorMsgs]

/-- Claim C4: during the single pass over the target sequence, a record
whose identity key is already present in the pins map produces exactly one
error, the duplicate message naming the previously stored pin, and the map
entry is then overwritten with the current record, so the key thereafter
resolves to the later record (last-write-wins). -/
theorem duplicate_pin_overwrites (st : CheckState) (pins : Pins) (r prev : Ireq)
    (hproc : r.editable = true ∨ r.name.isSome = true)
    (hdup : lookupPin pins (key_from_ireq r) = some prev) :
    (processTarget (st, pins) r).1.errors = st.errors + 1 ∧
    (processTarget (st, pins) r).1.errorMsgs = st.errorMsgs ++
      [format_requirement r ++ " is a duplicate of " ++ format_requirement prev] ∧
    (processTarget (st, pins) r).2 = insertPin pins (key_from_ireq r) r ∧
    lookupPin (processTarget (st, pins) r).2 (key_from_ireq r) = some r := by
  have hins : lookupPin (insertPin pins (key_from_ireq r) r) (key_from_ireq r) = some r :=
    lookupPin_insertPin pins (key_from_ireq r) r
  have hpt : ∃ st' : CheckState, st'.errors = st.errors ∧ st'.errorMsgs = st.errorMsgs ∧
      processTarget (st, pins) r = targetStep st' pins r := by
    cases heb : r.editable with
    | true =>
      by_cases hn : r.name.isSome = true
      · refine ⟨st.warning (format_requirement r ++ " is editable"), rfl, rfl, ?_⟩
        unfold processTarget
        rw [heb, if_pos rfl, if_pos hn]
      · refine ⟨st, rfl, rfl, ?_⟩
        unfold processTarget
        rw [heb, if_pos rfl, if_neg hn]
    | false =>
      have hn : r.name.isSome = true := by
        cases hproc with
        | inl h => rw [heb] at h; cases h
        | inr h => exact h
      have hnn : ¬ (r.name.isNone = true) := by
        cases hx : r.name with
        | none => rw [hx] at hn; cases hn
        | some v => intro hc; cases hc
      refine ⟨st, rfl, rfl, ?_⟩
      unfold processTarget
      rw [heb]
      simp only [Bool.false_eq_true, if_false]
      rw [if_neg hnn]
  obtain ⟨st', he, hm, hpt⟩ := hpt
  have h := targetStep_duplicate st' pins r prev hdup
  rw [hpt]
  exact ⟨by rw [h.1, he], by rw [h.2.1, hm], h.2.2, by rw [h.2.2]; exact hins⟩

/-- Witness for C4: starting from the state after reading `six==1.9.0`,
reading `six==1.10.0` emits the duplicate error naming `six==1.9.0` and
leaves `six==1.10.0` as the stored pin. -/
theorem duplicate_pin_overwrites_witness :
    ((processTarget (CheckState.init, [("six", six190)]) six1100).1.errors =
      CheckState.init.errors + 1 ∧
    (processTarget (CheckState.init, [("six", six190)]) six1100).1.errorMsgs =
      CheckState.init.errorMsgs ++
      [format_requirement six1100 ++ " is a duplicate of " ++ format_requirement six190] ∧
    (processTarget (CheckState.init, [("six", six190)]) six1100).2 =
      insertPin [("six", six190)] (key_from_ireq six1100) six1100 ∧
    lookupPin (processTarget (CheckState.init, [("six", six190)]) six1100).2
      (key_from_ireq six1100) = some six1100) ∧
    (builtPins [six190, six1100]).1.errorMsgs =
      ["six==1.10.0 is a duplicate of six==1.9.0"] ∧
    lookupPin (builtPins [six190, six1100]).2 "six" = some six1100 :=
  ⟨duplicate_pin_overwrites CheckState.init [("six", six190)] six1100 six190
    (Or.inr rfl) rfl, by decide, by decide⟩

/-- Claim C5: a non-constraint source record whose identity key is absent
from the pins map yields exactly the missing-requirement error, and the
loop body ends there — the specifier-compatibility check is skipped. -/
theorem missing_requirement_error (st : CheckState) (pins : Pins) (r : Ireq)
    (hcon : r.constraint = false)
    (habs : containsPin pins (key_from_ireq r) = false) :
    processSource pins st r =
      Except.ok (st.error ("missing requirement " ++ format_constraint r)) := by
  unfold processSource
  rw [hcon, habs]
  rfl

/-- Witness for C5: with target pins `[six==1.10.0]`, the bare source
record `django` produces exactly the missing-requirement error. -/
theorem missing_requirement_error_witness :
    processSource [("six", six1100)] CheckState.init djangoBareSrc =
      Except.ok (CheckState.init.error
        ("missing requirement " ++ format_constraint djangoBareSrc)) :=
  missing_requirement_error CheckState.init [("six", six1100)] djangoBareSrc rfl (by decide)

/-- Claim C1 (code bug): on the spec's own orphan example — target
`[gnureadline==6.6.3, six==1.9.0]`, source `[six]` — the run completes
with exit status 0 but records no warning at all, even though the pin key
`gnureadline` is absent from the primary packages: the orphan check the
spec (and the repository's own test suite) describes is never executed,
since `primary_packages` is computed and then never used. -/
theorem orphan_warning_never_emitted :
    runCheck [gnureadline663, six190] [sixBareSrc] =
      Except.ok ⟨0, 0, [], [], 0, ["six"], ["gnureadline", "six"]⟩ := by
  decide

/-- Claim C2 (code bug): a constraint-only source record whose identity
key is absent from the pins map is not silently skipped — the guard only
protects non-constraint records, so the subsequent `existing_pins[key]`
lookup aborts the run with an uncaught `KeyError`. -/
theorem constraint_absent_key_error :
    runCheck [] [sixGe1100c] = Except.error (RunErr.keyError "six") := by
  decide

/-- Claim C3: a source record with a requirement carrying a non-empty
specifier, whose identity key maps to a stored pin, has the version of the
pin's leading specifier clause tested against the source specifier; when
the version does not satisfy it, exactly one error with the incompatible-
requirements template is emitted. -/
theorem incompatible_requirement_error (st : CheckState) (pins : Pins) (r pin : Ireq)
    (op v : String) (rest : List (String × String))
    (hlook : lookupPin pins (key_from_ireq r) = some pin)
    (hpin : pin.specifier = (op, v) :: rest)
    (hname : r.name.isSome = true)
    (hspec : r.specifier.isEmpty = false)
    (hviol : specContains r.specifier v = false) :
    processSource pins st r =
      Except.ok (st.error ("incompatible requirements found, " ++
        format_requirement pin ++ " violates constraint " ++ format_constraint r)) := by
  have hc : containsPin pins (key_from_ireq r) = true := by
    unfold containsPin; rw [hlook]; rfl
  simp [processSource, hc, hlook, hpin, hname, hspec, hviol]

/-- Witness for C3: source `six==1.10.0` against pin `six==1.9.0` yields
the incompatible-requirements error of the spec's example. -/
theorem incompatible_requirement_error_witness :
    processSource [("six", six190)] CheckState.init six1100src =
      Except.ok (CheckState.init.error ("incompatible requirements found, " ++
        "six==1.9.0 violates constraint six==1.10.0 from requirements.in")) :=
  (incompatible_requirement_error CheckState.init [("six", six190)] six1100src six190
    "==" "1.9.0" [] rfl rfl rfl rfl (by decide)).trans (by decide)

/-- Claim C6: a source record whose environment marker evaluates false is
dropped before the reconcile loop — prepending it to the sources changes
nothing in the run's findings or exit status — while its identity key
still enters `primary_packages`, which is built from the unfiltered
concatenation before the filtering step. -/
theorem marker_false_source_dropped (targets rest : List Ireq) (r : Ireq)
    (hm : r.markers = some false) (hc : r.constraint = false) :
    runCheck targets (r :: rest) =
      (runCheck targets rest).map
        (fun res => { res with primaryPackages := key_from_ireq r :: res.primaryPackages }) := by
  unfold runCheck
  rw [List.filter_cons, List.filter_cons]
  simp only [hm, hc, Option.getD_some, Bool.not_false, if_true, Bool.false_eq_true,
    if_false, List.map_cons]
  cases (rest.filter (fun q => q.markers.getD true)).foldlM
      (processSource (builtPins targets).2) (builtPins targets).1 with
  | error e => rfl
  | ok stf => rfl

/-- Witness for C6: the marker-false primary record `django` triggers no
missing-requirement error against pins `[six==1.10.0]`, yet `django` is
counted among the primary packages. -/
theorem marker_false_source_dropped_witness :
    (runCheck [six1100] [djangoMarkerFalse, sixBareSrc] =
      (runCheck [six1100] [sixBareSrc]).map
        (fun res => { res with
          primaryPackages := key_from_ireq djangoMarkerFalse :: res.primaryPackages })) ∧
    runCheck [six1100] [djangoMarkerFalse, sixBareSrc] =
      Except.ok ⟨0, 0, [], [], 0, ["django", "six"], ["six"]⟩ :=
  ⟨marker_false_source_dropped [six1100] [sixBareSrc] djangoMarkerFalse rfl rfl, by decide⟩

/-- Claim C7: every run that completes yields exit status 1 when the error
counter is positive and 0 otherwise — warnings alone never change the
status. -/
theorem exit_status_from_errors (targets sources : List Ireq) (res : RunResult)
    (h : runCheck targets sources = Except.ok res) :
    res.exitStatus = (if res.errors > 0 then 1 else 0) := by
  simp only [runCheck] at h
  cases hx : (sources.filter (fun q => q.markers.getD true)).foldlM
      (processSource (builtPins targets).2) (builtPins targets).1 with
  | error e =>
    rw [hx] at h
    simp [Except.map] at h
  | ok stf =>
    rw [hx] at h
    simp only [Except.map] at h
    injection h with h
    rw [← h]
    simp [mkResult]

/-- Witness for C7: a run with one warning and no errors exits with
status 0. -/
theorem exit_status_from_errors_witness :
    runCheck [sixBare] [] = Except.ok unpinnedRunResult ∧
    unpinnedRunResult.errors = 0 ∧ unpinnedRunResult.warnings = 1 ∧
    unpinnedRunResult.exitStatus = (if unpinnedRunResult.errors > 0 then 1 else 0) :=
  ⟨by decide, by decide, by decide,
    exit_status_from_errors [sixBare] [] unpinnedRunResult (by decide)⟩

/-- Counterexample to C8 as stated: processing the nameless editable
record leaves the sink untouched but does insert an entry into the pins
map — the map is `[("", record)]`, not empty. -/
theorem editable_no_name_inserts_counterexample :
    (builtPins [editableNoName]).1 = CheckState.init ∧
    (builtPins [editableNoName]).2 = [("", editableNoName)] :=
  ⟨by decide, by decide⟩

/-- Claim C8 (amended): a URL-based editable target record with no
resolvable name emits no finding and changes no counter, but it is stored
in the pins map under its derived identity key (the empty key of a
nameless record), consuming an identity slot. -/
theorem editable_no_name_keeps_state_but_inserts (st : CheckState) (pins : Pins) (r : Ireq)
    (hed : r.editable = true) (hname : r.name = none)
    (hurl : is_url_requirement r = true)
    (habs : lookupPin pins "" = none) :
    processTarget (st, pins) r = (st, pins ++ [("", r)]) := by
  have hkey : key_from_ireq r = "" := by unfold key_from_ireq; rw [hname]
  have hnsome : r.name.isSome = false := by rw [hname]; rfl
  have hany := any_eq_false_of_lookupPin_none pins "" habs
  simp [processTarget, targetStep, warnUnpinned, errorDuplicate, insertPin,
    hed, hnsome, hkey, habs, hurl, hany]

/-- Witness for C8 (amended): the sample nameless editable record, on the
empty state, stores itself under the empty key with no finding. -/
theorem editable_no_name_keeps_state_but_inserts_witness :
    processTarget (CheckState.init, []) editableNoName =
      (CheckState.init, [("", editableNoName)]) :=
  editable_no_name_keeps_state_but_inserts CheckState.init [] editableNoName
    rfl rfl rfl rfl

/-- Counterexample to C9 as stated: for the single nameless editable
record, the pins map has the same size as the target list although not
every record has a resolvable name, so size equality does not force the
claimed right-hand side. -/
theorem pins_size_iff_counterexample :
    (builtPins [editableNoName]).2.length = ([editableNoName] : List Ireq).length ∧
    ¬ ((([editableNoName] : List Ireq).map key_from_ireq).Nodup ∧
        ∀ r ∈ ([editableNoName] : List Ireq), r.name.isSome = true) := by
  refine ⟨by decide, ?_⟩
  rintro ⟨-, hall⟩
  have h := hall editableNoName (List.mem_singleton.mpr rfl)
  cases h

/-- Claim C9 (amended): the pins map never exceeds the target list in
size, and the sizes are equal exactly when every target record is
processed (editable, or carrying a parsed identity) and no identity key
repeats among the processed records. -/
theorem pins_size_bound_and_equality (ts : List Ireq) :
    (builtPins ts).2.length ≤ ts.length ∧
    ((builtPins ts).2.length = ts.length ↔
      (∀ r ∈ ts, r.editable = true ∨ r.name.isSome = true) ∧
      (processedKeys ts).Nodup) := by
  have hlen := length_builtPins ts
  have hfilter : (processedKeys ts).length =
      (ts.filter (fun r => r.editable || r.name.isSome)).length := by
    unfold processedKeys; rw [List.length_map]
  have hm : (processedKeys ts).length ≤ ts.length := by
    rw [hfilter]; exact List.length_filter_le _ _
  have hcard : (processedKeys ts).toFinset.card ≤ (processedKeys ts).length :=
    List.toFinset_card_le _
  constructor
  · omega
  · constructor
    · intro heq
      have hmeq : (processedKeys ts).length = ts.length := by omega
      have hceq : (processedKeys ts).toFinset.card = (processedKeys ts).length := by omega
      constructor
      · have hfe : ts.filter (fun r => r.editable || r.name.isSome) = ts := by
          apply List.Sublist.eq_of_length (List.filter_sublist ts)
          rw [← hfilter]; exact hmeq
        intro r hr
        have hp := List.filter_eq_self.mp hfe r hr
        rcases Bool.or_eq_true_iff.mp hp with h | h
        · exact Or.inl h
        · exact Or.inr h
      · rw [List.card_toFinset] at hceq
        have hd : (processedKeys ts).dedup = processedKeys ts :=
          (List.dedup_sublist (processedKeys ts)).eq_of_length hceq
        exact List.dedup_eq_self.mp hd
    · rintro ⟨hall, hnd⟩
      have hfe : ts.filter (fun r => r.editable || r.name.isSome) = ts := by
        apply List.filter_eq_self.mpr
        intro r hr
        rcases hall r hr with h | h
        · rw [h]; rfl
        · rw [h]; exact Bool.or_true _
      have hmeq : (processedKeys ts).length = ts.length := by
        rw [hfilter, hfe]
      have hceq : (processedKeys ts).toFinset.card = (processedKeys ts).length :=
        List.toFinset_card_of_nodup hnd
      omega

/-- Counterexample to C10 as stated: the version-extraction step is
reachable with a pin whose specifier is empty — target `[six]` (stored
with an unpinned warning), source `[six==1.10.0]` — and the run aborts
with `StopIteration` instead of completing. -/
theorem unpinned_pin_extraction_aborts_counterexample :
    runCheck [sixBare] [six1100src] = Except.error RunErr.stopIteration := by
  decide

/-- Claim C10 (amended): when the reconcile loop reaches the version-
extraction step with a stored pin whose specifier is empty — as happens
for a pin recorded with an unpinned warning — extracting the first clause
hits the empty case and the run aborts with an exception. -/
theorem empty_pin_specifier_aborts (st : CheckState) (pins : Pins) (r pin : Ireq)
    (hlook : lookupPin pins (key_from_ireq r) = some pin)
    (hempty : pin.specifier = [])
    (hname : r.name.isSome = true)
    (hspec : r.specifier.isEmpty = false) :
    processSource pins st r = Except.error RunErr.stopIteration := by
  have hc : containsPin pins (key_from_ireq r) = true := by
    unfold containsPin; rw [hlook]; rfl
  simp [processSource, hc, hlook, hname, hspec, hempty]

/-- Witness for C10 (amended): the unpinned pin `six` against source
`six==1.10.0` aborts the reconcile step. -/
theorem empty_pin_specifier_aborts_witness :
    processSource [("six", sixBare)] CheckState.init six1100src =
      Except.error RunErr.stopIteration :=
  empty_pin_specifier_aborts CheckState.init [("six", sixBare)] six1100src sixBare
    (by decide) rfl rfl rfl

end PipCheck
